import Mathlib

/-!
Verification of the string-metrics library (`stickyants-commons-text`).

The development shallowly embeds the TypeScript sources:

* `LevenshteinDetailedDistance.ts` — the detailed Levenshtein engine:
  `unlimitedCompare`, the banded `limitedCompare`, and the shared backtrace
  `findDetailedResults`, plus the class with its misnamed constructor;
* `JaroWinklerDistance.ts` — `matches` and `apply`;
  JavaScript's fractional window radius (`max.length / 2 - 1` in IEEE-754
  arithmetic) makes every scan position an exact half-integer, modelled
  exactly by storing positions doubled;
* the null-check guards of the public entry points.

Sequences are lists of characters; JavaScript numbers that stay integral are
modelled as `Nat`/`Int`; the few places where IEEE-754 behaviour matters
(`Number.MAX_VALUE` saturation, fractional array indices) are modelled
explicitly and exactly.
-/

namespace CommonsText

/-- A character sequence, as the engines see it (zero-indexed code units). -/
abbrev Str := List Char

/-- `charAt` out-of-range fallback character (never influences reachable runs;
reads are guarded by the loop bounds exactly as in the source). -/
def nullChar : Char := Char.ofNat 0

/-- `LevenshteinResults`: immutable record of distance and operation counts
(`LevenshteinResults.js`). The distance is `-1` for the bounded sentinel. -/
structure LevenshteinResults where
  distance : Int
  insertCount : Nat
  deleteCount : Nat
  substituteCount : Nat
  deriving Repr, DecidableEq

/-- `Number.MAX_VALUE`, exactly: `(2^53 - 1) * 2^971`. -/
def maxValue : Nat := (2 ^ 53 - 1) * 2 ^ 971

/-- JavaScript `1 + x` on doubles, restricted to the values reachable in the
banded DP: small integers (exact) and `Number.MAX_VALUE`, where IEEE-754
rounding gives `1 + MAX_VALUE = MAX_VALUE`. -/
def jsSucc (x : Nat) : Nat := if x = maxValue then maxValue else x + 1

/-- Read entry `(r, c)` of a matrix stored as a list of rows; unset entries
read `0`, exactly like the zero-initialised JS arrays from `createArray`. -/
def mget (mat : List (List Nat)) (r c : Nat) : Nat := (mat.getD r []).getD c 0

namespace LevenshteinDetailedDistance

/-- `dataAtLeft` of the backtrace (lines 430-434): `-1` on the border,
otherwise the matrix entry left of the current cell. -/
def dAtLeft (mat : Nat → Nat → Nat) (rowIndex columnIndex : Int) : Int :=
  if columnIndex = 0 then -1 else (mat rowIndex.toNat (columnIndex - 1).toNat : Int)

/-- `dataAtTop` of the backtrace (lines 435-439). -/
def dAtTop (mat : Nat → Nat → Nat) (rowIndex columnIndex : Int) : Int :=
  if rowIndex = 0 then -1 else (mat (rowIndex - 1).toNat columnIndex.toNat : Int)

/-- `dataAtDiagonal` of the backtrace (lines 440-444). -/
def dAtDiag (mat : Nat → Nat → Nat) (rowIndex columnIndex : Int) : Int :=
  if 0 < rowIndex ∧ 0 < columnIndex then
    (mat (rowIndex - 1).toNat (columnIndex - 1).toNat : Int)
  else -1

/-- One iteration step of the `findDetailedResults` backtrace
(`LevenshteinDetailedDistance.ts`, lines 428-489), as a fuel recursion.
Returns the `(insert, delete, substitute)` counters accumulated by the walk;
each `+1` below corresponds to one counter increment of the source.
`row`/`col` are JS numbers that the loop keeps while `>= 0`. -/
def btWalk (leftc rightc : Str) (mat : Nat → Nat → Nat) (swapped : Bool) :
    Nat → Int → Int → Nat × Nat × Nat
  | 0, _, _ => (0, 0, 0)
  | fuel + 1, rowIndex, columnIndex =>
    if ¬ (0 ≤ rowIndex ∧ 0 ≤ columnIndex) then (0, 0, 0)
    else if dAtLeft mat rowIndex columnIndex = -1 ∧
        dAtTop mat rowIndex columnIndex = -1 ∧
        dAtDiag mat rowIndex columnIndex = -1 then (0, 0, 0)
    else
      let data : Int := (mat rowIndex.toNat columnIndex.toNat : Int)
      if 0 < columnIndex ∧ 0 < rowIndex ∧
          leftc.getD (columnIndex - 1).toNat nullChar =
            rightc.getD (rowIndex - 1).toNat nullChar then
        btWalk leftc rightc mat swapped fuel (rowIndex - 1) (columnIndex - 1)
      else if (data - 1 = dAtLeft mat rowIndex columnIndex ∧
          data ≤ dAtDiag mat rowIndex columnIndex ∧
          data ≤ dAtTop mat rowIndex columnIndex)
          ∨ (dAtDiag mat rowIndex columnIndex = -1 ∧
             dAtTop mat rowIndex columnIndex = -1) then
        let t := btWalk leftc rightc mat swapped fuel rowIndex (columnIndex - 1)
        if swapped then (t.1 + 1, t.2.1, t.2.2) else (t.1, t.2.1 + 1, t.2.2)
      else if (data - 1 = dAtTop mat rowIndex columnIndex ∧
          data ≤ dAtDiag mat rowIndex columnIndex ∧
          data ≤ dAtLeft mat rowIndex columnIndex)
          ∨ (dAtDiag mat rowIndex columnIndex = -1 ∧
             dAtLeft mat rowIndex columnIndex = -1) then
        let t := btWalk leftc rightc mat swapped fuel (rowIndex - 1) columnIndex
        if swapped then (t.1, t.2.1 + 1, t.2.2) else (t.1 + 1, t.2.1, t.2.2)
      else
        let t := btWalk leftc rightc mat swapped fuel (rowIndex - 1) (columnIndex - 1)
        (t.1, t.2.1, t.2.2 + 1)

/-- `findDetailedResults` (lines 409-491): backtrace the filled cost matrix
from `(right.length, left.length)`; the result's distance is the sum of the
three counters, exactly as in `new LevenshteinResults(add+del+sub, ...)`.
The fuel `right.length + left.length + 1` covers every iteration the JS
`while` loop can perform, since each iteration that does not `break` moves
at least one index down. -/
def findDetailedResults (leftc rightc : Str) (mat : Nat → Nat → Nat)
    (swapped : Bool) : LevenshteinResults :=
  let t := btWalk leftc rightc mat swapped (rightc.length + leftc.length + 1)
    (rightc.length : Int) (leftc.length : Int)
  ⟨((t.1 + t.2.1 + t.2.2 : Nat) : Int), t.1, t.2.1, t.2.2⟩

/-- Inner loop of `unlimitedCompare` (lines 377-387): fills one DP row.
`cs` is the remaining suffix of the (already swapped) left string, `ps` the
previous row entries `p[i], p[i+1], ...`, `pPrev` is `p[i-1]`, `dPrev` is
`d[i-1]`. -/
def unlGo (rightJ : Char) : List Char → List Nat → Nat → Nat → List Nat
  | [], _, _, _ => []
  | _ :: _, [], _, _ => []
  | c :: cs, pCur :: pRest, pPrev, dPrev =>
    let cost : Nat := if c = rightJ then 0 else 1
    let di := min (min (dPrev + 1) (pCur + 1)) (pPrev + cost)
    di :: unlGo rightJ cs pRest pCur di

/-- One full row `d` of the unbounded DP: `d[0] = j` followed by the inner
loop over the left string. -/
def unlNextRow (leftc : Str) (rightJ : Char) (p : List Nat) (j : Nat) : List Nat :=
  j :: unlGo rightJ leftc (p.drop 1) (p.headD 0) j

/-- Outer loop of `unlimitedCompare` (lines 377-393): iterates over the right
string, producing the matrix rows `1..m`; the freshly built `d` row becomes
the next `p`. -/
def unlLoop (leftc : Str) : List Char → List Nat → Nat → List (List Nat)
  | [], _, _ => []
  | rj :: rest, p, j =>
    let d := unlNextRow leftc rj p j
    d :: unlLoop leftc rest d (j + 1)

/-- The full `(m+1) × (n+1)` cost matrix retained by `unlimitedCompare`:
row `0` is the border `0..n` and the remaining rows come from the rolling
loop (in unbounded mode every interior entry is freshly written, so the
retained matrix rows coincide with the successive `d` arrays). -/
def matrixU (leftc rightc : Str) : List (List Nat) :=
  (List.range (leftc.length + 1)) ::
    unlLoop leftc rightc (List.range (leftc.length + 1)) 1

/-- The common tail of `unlimitedCompare` after operand normalisation:
`leftc` is the shorter operand, `swapped` records the exchange. -/
def unlimitedCore (leftc rightc : Str) (swapped : Bool) : LevenshteinResults :=
  findDetailedResults leftc rightc (mget (matrixU leftc rightc)) swapped

/-- The recurrence the unbounded DP loop implements, as a function of the
cell coordinates (row `j` over `rightc`, column `i` over `leftc`); used to
characterise the entries of `matrixU`. -/
def matFun (leftc rightc : Str) : Nat → Nat → Nat
  | 0, i => i
  | j + 1, 0 => j + 1
  | j + 1, i + 1 =>
    let cost : Nat := if leftc.getD i nullChar = rightc.getD j nullChar then 0 else 1
    min (min (matFun leftc rightc (j + 1) i + 1) (matFun leftc rightc j (i + 1) + 1))
      (matFun leftc rightc j i + cost)
  termination_by j i => (j, i)

/-- `unlimitedCompare` (lines 312-395): base cases for empty operands, the
memory-saving swap to make the left operand the shorter one, then the DP and
backtrace. -/
def unlimitedCompare (leftc rightc : Str) : LevenshteinResults :=
  if leftc.length = 0 then ⟨(rightc.length : Int), rightc.length, 0, 0⟩
  else if rightc.length = 0 then ⟨(leftc.length : Int), 0, leftc.length, 0⟩
  else if rightc.length < leftc.length then unlimitedCore rightc leftc true
  else unlimitedCore leftc rightc false

/-- Inner stripe loop of `limitedCompare` (lines 256-265): for
`i = mn .. mx` update `d[i]` and write it into the matrix row. `count` is
the number of remaining indices. -/
def stripeGo (leftc : Str) (rightJ : Char) (p : List Nat) :
    Nat → Nat → List Nat → List Nat → List Nat × List Nat
  | 0, _, d, row => (d, row)
  | count + 1, i, d, row =>
    let di :=
      if leftc.getD (i - 1) nullChar = rightJ then p.getD (i - 1) 0
      else jsSucc (min (min (d.getD (i - 1) 0) (p.getD i 0)) (p.getD (i - 1) 0))
    stripeGo leftc rightJ p count (i + 1) (d.set i di) (row.set i di)

/-- Outer loop of `limitedCompare` (lines 236-271): `count` counts the rows
still to process, `j` is the current row. Returns `none` on the early
stripe-off-the-matrix exit (line 247), otherwise the final `p` array and the
matrix. The recursive call swaps `p` and `d`. -/
def limLoop (leftc rightc : Str) (thr : Nat) :
    Nat → Nat → List Nat → List Nat → List (List Nat) →
    Option (List Nat × List (List Nat))
  | 0, _, p, _, mat => some (p, mat)
  | count + 1, j, p, d, mat =>
    let rightJ := rightc.getD (j - 1) nullChar
    let d1 := d.set 0 j
    let mn := max 1 (j - thr)
    let mx := if maxValue - thr < j then leftc.length else min leftc.length (j + thr)
    if mx < mn then none
    else
      let d2 := if 1 < mn then d1.set (mn - 1) maxValue else d1
      let dr := stripeGo leftc rightJ p (mx + 1 - mn) mn d2 (mat.getD j [])
      limLoop leftc rightc thr count (j + 1) dr.1 p (mat.set j dr.2)

/-- The initial `p` array of `limitedCompare` (lines 226-232): `p[i] = i`
below the boundary, `Number.MAX_VALUE` above it. -/
def limP0 (n thr : Nat) : List Nat :=
  (List.range (n + 1)).map fun i => if i < min n thr + 1 then i else maxValue

/-- The matrix of `limitedCompare` after the border initialisation
(lines 217-223): row `0` is `0..n`, row `j ≥ 1` is `j` followed by zeros. -/
def limMat0 (n m : Nat) : List (List Nat) :=
  (List.range (n + 1)) :: (List.range' 1 m).map fun j => j :: List.replicate n 0

/-- The tail of `limitedCompare` after operand normalisation: run the banded
loop, then accept the result only when `p[n] <= threshold` (line 274). -/
def limitedCore (leftc rightc : Str) (thr : Nat) (swapped : Bool) :
    LevenshteinResults :=
  match limLoop leftc rightc thr rightc.length 1 (limP0 leftc.length thr)
      (List.replicate (leftc.length + 1) maxValue) (limMat0 leftc.length rightc.length) with
  | none => ⟨-1, 0, 0, 0⟩
  | some pm =>
    if pm.1.getD leftc.length 0 ≤ thr then
      findDetailedResults leftc rightc (mget pm.2) swapped
    else ⟨-1, 0, 0, 0⟩

/-- `limitedCompare` (lines 131-278) for a non-negative integral threshold:
empty-operand base cases resolve against the threshold directly, otherwise
the operands are swapped so the left one is shorter and the banded DP runs. -/
def limitedCompare (leftc rightc : Str) (thr : Nat) : LevenshteinResults :=
  if leftc.length = 0 then
    if rightc.length ≤ thr then ⟨(rightc.length : Int), rightc.length, 0, 0⟩
    else ⟨-1, 0, 0, 0⟩
  else if rightc.length = 0 then
    if leftc.length ≤ thr then ⟨(leftc.length : Int), 0, leftc.length, 0⟩
    else ⟨-1, 0, 0, 0⟩
  else if rightc.length < leftc.length then limitedCore rightc leftc thr true
  else limitedCore leftc rightc thr false

/-- `limitedCompare` together with its fail-fast guards (lines 134-139):
absent (`null`/`undefined`) operands are modelled as `none`, and both the
null check and the negative-threshold check are performed before any
computation, exactly in source order. -/
def limitedCompareChecked (left right : Option Str) (threshold : Int) :
    Except String LevenshteinResults :=
  match left, right with
  | some l, some r =>
    if threshold < 0 then Except.error "Threshold must not be negative"
    else Except.ok (limitedCompare l r threshold.toNat)
  | _, _ => Except.error "CharSequences must not be null"

/-- `unlimitedCompare` together with its fail-fast null guard
(lines 313-315). -/
def unlimitedCompareChecked (left right : Option Str) :
    Except String LevenshteinResults :=
  match left, right with
  | some l, some r => Except.ok (unlimitedCompare l r)
  | _, _ => Except.error "CharSequences must not be null"

end LevenshteinDetailedDistance

/-- The `LevenshteinDetailedDistance` class (lines 16-41). Its only state is
the `threshold` member; `none` models both `null` and `undefined`, which the
dispatch in `apply` (`this.threshold != null`, loose equality) cannot tell
apart. -/
structure LevenshteinDetailedDistance where
  threshold : Option Int

namespace LevenshteinDetailedDistance

/-- `new LevenshteinDetailedDistance(...)`: the class declares no member
named `constructor` (the member of the class's own name at lines 36-41 is an
ordinary method in TypeScript), so `new` runs the implicit default
constructor and `threshold` is left `undefined`, with no validation of any
kind. -/
def newInstance : LevenshteinDetailedDistance := ⟨none⟩

/-- `static DEFAULT_INSTANCE = new LevenshteinDetailedDistance()` (line 21). -/
def DEFAULT_INSTANCE : LevenshteinDetailedDistance := newInstance

/-- The misnamed would-be constructor, the ordinary instance method
`LevenshteinDetailedDistance(threshold = null)` (lines 36-41): validates and
stores a threshold, but only when invoked explicitly as a method. -/
def methodLevenshteinDetailedDistance (threshold : Option Int) :
    Except String LevenshteinDetailedDistance :=
  match threshold with
  | some t =>
    if t < 0 then Except.error "Threshold must not be negative"
    else Except.ok ⟨some t⟩
  | none => Except.ok ⟨none⟩

/-- Instance `apply` (lines 75-80): dispatch on `this.threshold != null`. -/
def apply (self : LevenshteinDetailedDistance) (left right : Option Str) :
    Except String LevenshteinResults :=
  match self.threshold with
  | some t => limitedCompareChecked left right t
  | none => unlimitedCompareChecked left right

end LevenshteinDetailedDistance

namespace JaroWinklerDistance

/-- Inner scan of `JaroWinklerDistance.matches` (lines 100-107). The scan
index `xi` is a JavaScript number: the window radius
`max.length / 2 - 1` uses real division, so for odd `max.length` the radius
and `xi` are half-integers; `charAt` truncates them and `matchFlags[xi]`
addresses a property distinct from every integer entry. Every position is
an exact multiple of `1/2`, so the model stores indices and flag keys
doubled (`xi2` is `2 * xi`): the encoding is bijective and keeps the
arithmetic in `Nat`. Fuel `max.length + 2` covers every iteration (`xi`
starts `>= 0`, the loop stops before `xn <= max.length`). -/
def jwScan (mx : Str) (c1 : Char) (flags : List Nat) (xn2 : Nat) :
    Nat → Nat → Option Nat
  | 0, _ => none
  | fuel + 1, xi2 =>
    if xi2 < xn2 then
      if xi2 ∉ flags ∧ c1 = mx.getD (xi2 / 2) nullChar then some xi2
      else jwScan mx c1 flags xn2 fuel (xi2 + 2)
    else none

/-- Outer loop of `matches` (lines 98-108): for each index `mi` of the
shorter string, scan the longer one in the window and record the match
index (`matchIndexes[mi]`) and the used key (`matchFlags[xi] = true`).
Doubled encoding: the radius `max(max.length/2 - 1, 0)` doubles to the
truncated subtraction `max.length - 2`, the window start
`max(mi - range, 0)` to `2*mi - rng2`, and the bound
`min(mi + range + 1, max.length)` to `min(2*mi + rng2 + 2, 2*max.length)`. -/
def jwOuter (mx : Str) (rng2 : Nat) : List Char → Nat → List Nat →
    List Nat × List (Option Nat)
  | [], _, flags => (flags, [])
  | c1 :: rest, mi, flags =>
    let xi02 : Nat := 2 * mi - rng2
    let xn2 : Nat := min (2 * mi + rng2 + 2) (2 * mx.length)
    match jwScan mx c1 flags xn2 (mx.length + 2) xi02 with
    | some xi =>
      let pr := jwOuter mx rng2 rest (mi + 1) (xi :: flags)
      (pr.1, some xi :: pr.2)
    | none =>
      let pr := jwOuter mx rng2 rest (mi + 1) flags
      (pr.1, none :: pr.2)

/-- The common-prefix loop of `matches` (lines 129-136): count equal leading
characters of the original arguments, up to `min(4, min.length)`, stopping
at the first mismatch. -/
def jwPrefixGo (first second : Str) : Nat → Nat → Nat
  | 0, _ => 0
  | rem + 1, mi =>
    if first.getD mi nullChar = second.getD mi nullChar then
      1 + jwPrefixGo first second rem (mi + 1)
    else 0

/-- `JaroWinklerDistance.matches` (lines 85-138; named `jwMatches` here
since `matches` is a Lean keyword): the `[matches,
halfTranspositions, prefix]` triple. `ms1`/`ms2` are the arrays
`createArray(matches, '')` after the fill loops: matched characters (from
`matchIndexes` resp. the integer entries of `matchFlags`), padded with the
initial `''` entries (modelled as `none`). -/
def jwMatches (first second : Str) : Nat × Nat × Nat :=
  let mx := if second.length < first.length then first else second
  let mn := if second.length < first.length then second else first
  let rng2 : Nat := mx.length - 2
  let pr := jwOuter mx rng2 mn 0 []
  let m := (pr.2.filterMap id).length
  let ms1c := (mn.zip pr.2).filterMap fun p => if p.2.isSome then some p.1 else none
  let ms1 := ms1c.map some ++ List.replicate (m - ms1c.length) (none : Option Char)
  let ms2c := (List.range mx.length).filterMap fun (i : Nat) =>
    if 2 * i ∈ pr.1 then some (mx.getD i nullChar) else none
  let ms2 := ms2c.map some ++ List.replicate (m - ms2c.length) (none : Option Char)
  let halfT := ((List.range m).filter fun i => ms1.getD i none ≠ ms2.getD i none).length
  (m, halfT, jwPrefixGo first second (min 4 mn.length) 0)

/-- `JaroWinklerDistance.apply` (lines 61-76), with JavaScript's real
arithmetic carried out exactly in `ℚ`. -/
def apply (left right : Str) : ℚ :=
  let mtp := jwMatches left right
  let m := mtp.1
  if m = 0 then 0
  else
    let j : ℚ := ((m : ℚ) / (left.length : ℚ) + (m : ℚ) / (right.length : ℚ)
      + ((m : ℚ) - (mtp.2.1 : ℚ) / 2) / (m : ℚ)) / 3
    if j < 7 / 10 then j else j + 1 / 10 * (mtp.2.2 : ℚ) * (1 - j)

/-- `JaroWinklerDistance.apply` together with its fail-fast null guard
(lines 64-66). -/
def applyChecked (left right : Option Str) : Except String ℚ :=
  match left, right with
  | some l, some r => Except.ok (apply l r)
  | _, _ => Except.error "CharSequences must not be null"

end JaroWinklerDistance

/-- Inner scan of the matching step as the spec describes it: integer window
`[index - range, index + range]` with `range = max(floor(max.length/2) - 1, 0)`,
first unused equal character. -/
def jwScanSpec (mx : Str) (c1 : Char) (flags : List Nat) : List Nat → Option Nat
  | [] => none
  | i :: rest =>
    if i ∉ flags ∧ c1 = mx.getD i nullChar then some i
    else jwScanSpec mx c1 flags rest

/-- Outer matching loop as the spec describes it (integer indices). -/
def jwOuterSpec (mx : Str) (rng : Nat) : List Char → Nat → List Nat →
    List Nat × List (Option Nat)
  | [], _, flags => (flags, [])
  | c1 :: rest, mi, flags =>
    let lo := mi - rng
    let cand := List.range' lo (min (mi + rng + 1) mx.length - lo)
    match jwScanSpec mx c1 flags cand with
    | some xi =>
      let pr := jwOuterSpec mx rng rest (mi + 1) (xi :: flags)
      (pr.1, some xi :: pr.2)
    | none =>
      let pr := jwOuterSpec mx rng rest (mi + 1) flags
      (pr.1, none :: pr.2)

/-- The matching step modelled from the spec's words (§4.4 steps 1-5):
`range = max(floor(max.length/2) - 1, 0)`, scan `[index-range, index+range]`
for the first unused equal character, mark it used; then matched-character
sequences, half-transpositions and the prefix bonus. Compared against
`JaroWinklerDistance.matches` for the refinement claim. -/
def jwMatchesSpec (first second : Str) : Nat × Nat × Nat :=
  let mx := if second.length < first.length then first else second
  let mn := if second.length < first.length then second else first
  let rng : Nat := mx.length / 2 - 1
  let pr := jwOuterSpec mx rng mn 0 []
  let m := (pr.2.filterMap id).length
  let ms1c := (mn.zip pr.2).filterMap fun p => if p.2.isSome then some p.1 else none
  let ms1 := ms1c.map some ++ List.replicate (m - ms1c.length) (none : Option Char)
  let ms2c := (List.range mx.length).filterMap fun i =>
    if i ∈ pr.1 then some (mx.getD i nullChar) else none
  let ms2 := ms2c.map some ++ List.replicate (m - ms2c.length) (none : Option Char)
  let halfT := ((List.range m).filter fun i => ms1.getD i none ≠ ms2.getD i none).length
  (m, halfT, JaroWinklerDistance.jwPrefixGo first second (min 4 mn.length) 0)

/-- The Jaro-Winkler score computed from the spec's matching step (§4.4
steps 6-7), used to exhibit the value the documentation expects. -/
def jwApplySpec (left right : Str) : ℚ :=
  let mtp := jwMatchesSpec left right
  let m := mtp.1
  if m = 0 then 0
  else
    let j : ℚ := ((m : ℚ) / (left.length : ℚ) + (m : ℚ) / (right.length : ℚ)
      + ((m : ℚ) - (mtp.2.1 : ℚ) / 2) / (m : ℚ)) / 3
    if j < 7 / 10 then j else j + 1 / 10 * (mtp.2.2 : ℚ) * (1 - j)

/-- Helper realising the inner recursion of `levSpec` on the second string:
`f` is `levSpec xs`, `x` the head and `tailLen` the length of the tail of
the first string, so that `levSpecGo f x tailLen ys` is
`levSpec (x :: xs) ys` (kept structural so it computes by reduction). -/
def levSpecGo (f : Str → Nat) (x : Char) (tailLen : Nat) : Str → Nat
  | [] => tailLen + 1
  | y :: ys =>
    if x = y then f ys
    else 1 + min (min (f (y :: ys)) (levSpecGo f x tailLen ys)) (f ys)

/-- The true Levenshtein edit distance, written from the spec's words
("minimum number of single-character insert/delete/substitute operations"):
the textbook recurrence, used as the reference value the claims compare
against. Unfolding `levSpecGo` gives
`levSpec (x :: xs) (y :: ys) =
  if x = y then levSpec xs ys else
  1 + min (min (levSpec xs (y :: ys)) (levSpec (x :: xs) ys)) (levSpec xs ys)`. -/
def levSpec : Str → Str → Nat
  | [] => fun ys => ys.length
  | x :: xs => levSpecGo (levSpec xs) x xs.length

/-! ## Theorems -/

open LevenshteinDetailedDistance

theorem findDetailedResults_distance_eq (L R : Str) (mat : Nat → Nat → Nat)
    (sw : Bool) :
    (findDetailedResults L R mat sw).distance =
      (((findDetailedResults L R mat sw).insertCount +
        (findDetailedResults L R mat sw).deleteCount +
        (findDetailedResults L R mat sw).substituteCount : Nat) : Int) := rfl

/-- C3: every `AlignmentResult` returned by the Levenshtein engine
(unbounded mode, bounded mode, base cases, sentinel) satisfies
`distance >= 0 → distance = insertCount + deleteCount + substituteCount`. -/
theorem claim3_counts_consistency (a b : Str) (t : Nat) :
    (0 ≤ (unlimitedCompare a b).distance →
      (unlimitedCompare a b).distance =
        (((unlimitedCompare a b).insertCount + (unlimitedCompare a b).deleteCount +
          (unlimitedCompare a b).substituteCount : Nat) : Int)) ∧
    (0 ≤ (limitedCompare a b t).distance →
      (limitedCompare a b t).distance =
        (((limitedCompare a b t).insertCount + (limitedCompare a b t).deleteCount +
          (limitedCompare a b t).substituteCount : Nat) : Int)) := by
  constructor
  · unfold unlimitedCompare unlimitedCore
    split_ifs with h1 h2 h3
    · intro _; simp
    · intro _; simp
    · exact fun _ => findDetailedResults_distance_eq ..
    · exact fun _ => findDetailedResults_distance_eq ..
  · unfold limitedCompare
    split_ifs with h1 h2 h3 h4 h5
    · intro _; simp
    · intro h; exact absurd h (by norm_num)
    · intro _; simp
    · intro h; exact absurd h (by norm_num)
    all_goals
      unfold limitedCore
      split
      · intro h; exact absurd h (by norm_num)
      · split_ifs with hp
        · exact fun _ => findDetailedResults_distance_eq ..
        · intro h; exact absurd h (by norm_num)

theorem dAtLeft_zero (mat : Nat → Nat → Nat) (r : Int) : dAtLeft mat r 0 = -1 :=
  if_pos rfl

theorem dAtLeft_succ (mat : Nat → Nat → Nat) (r : Int) (c : Nat) :
    dAtLeft mat r ((c : Int) + 1) = ((mat r.toNat c : Nat) : Int) := by
  unfold dAtLeft
  rw [if_neg (by omega)]
  have h : ((c : Int) + 1 - 1).toNat = c := by omega
  rw [h]

theorem dAtTop_zero (mat : Nat → Nat → Nat) (c : Int) : dAtTop mat 0 c = -1 :=
  if_pos rfl

theorem dAtTop_succ (mat : Nat → Nat → Nat) (r : Nat) (c : Int) :
    dAtTop mat ((r : Int) + 1) c = ((mat r c.toNat : Nat) : Int) := by
  unfold dAtTop
  rw [if_neg (by omega)]
  have h : ((r : Int) + 1 - 1).toNat = r := by omega
  rw [h]

theorem dAtDiag_row_zero (mat : Nat → Nat → Nat) (c : Int) : dAtDiag mat 0 c = -1 :=
  if_neg (by omega)

theorem dAtDiag_col_zero (mat : Nat → Nat → Nat) (r : Int) : dAtDiag mat r 0 = -1 :=
  if_neg (by omega)

theorem dAtDiag_succ (mat : Nat → Nat → Nat) (r c : Nat) :
    dAtDiag mat ((r : Int) + 1) ((c : Int) + 1) = ((mat r c : Nat) : Int) := by
  unfold dAtDiag
  rw [if_pos (by omega)]
  have h1 : ((r : Int) + 1 - 1).toNat = r := by omega
  have h2 : ((c : Int) + 1 - 1).toNat = c := by omega
  rw [h1, h2]

theorem btWalk_zero_zero (L R : Str) (mat : Nat → Nat → Nat) (sw : Bool)
    (fuel : Nat) : btWalk L R mat sw (fuel + 1) 0 0 = (0, 0, 0) := by
  simp only [btWalk, dAtLeft_zero, dAtTop_zero, dAtDiag_col_zero]
  norm_num

theorem btWalk_row_zero (L R : Str) (mat : Nat → Nat → Nat) (sw : Bool)
    (fuel : Nat) (c : Nat) :
    btWalk L R mat sw (fuel + 1) 0 ((c : Int) + 1) =
      (fun t : Nat × Nat × Nat =>
        if sw then (t.1 + 1, t.2.1, t.2.2) else (t.1, t.2.1 + 1, t.2.2))
        (btWalk L R mat sw fuel 0 (c : Int)) := by
  simp only [btWalk, dAtLeft_succ, dAtTop_zero, dAtDiag_row_zero]
  rw [if_neg (by omega), if_neg (by omega), if_neg (by rintro ⟨-, h2, -⟩; omega),
    if_pos (Or.inr (by simp))]
  have h : ((c : Int) + 1 - 1) = (c : Int) := by omega
  rw [h]

theorem btWalk_col_zero (L R : Str) (mat : Nat → Nat → Nat) (sw : Bool)
    (fuel : Nat) (r : Nat) (h1 : mat (r + 1) 0 = r + 1) (h2 : mat r 0 = r) :
    btWalk L R mat sw (fuel + 1) ((r : Int) + 1) 0 =
      (fun t : Nat × Nat × Nat =>
        if sw then (t.1, t.2.1 + 1, t.2.2) else (t.1 + 1, t.2.1, t.2.2))
        (btWalk L R mat sw fuel (r : Int) 0) := by
  have hz : ((0 : Int)).toNat = 0 := rfl
  have hrt : (((r : Int) + 1)).toNat = r + 1 := by omega
  simp only [btWalk, dAtLeft_zero, dAtTop_succ, dAtDiag_col_zero, hz, hrt, h1, h2]
  rw [if_neg (by omega), if_neg (by omega), if_neg (by rintro ⟨h3, -, -⟩; omega),
    if_neg (by rintro (⟨h3, -, -⟩ | ⟨-, h4⟩) <;> omega),
    if_pos (Or.inr (by simp))]
  have h : ((r : Int) + 1 - 1) = (r : Int) := by omega
  rw [h]

theorem btWalk_succ_succ (L R : Str) (mat : Nat → Nat → Nat) (sw : Bool)
    (fuel : Nat) (r c : Nat) :
    btWalk L R mat sw (fuel + 1) ((r : Int) + 1) ((c : Int) + 1) =
      if L.getD c nullChar = R.getD r nullChar then
        btWalk L R mat sw fuel (r : Int) (c : Int)
      else if ((mat (r + 1) (c + 1) : Int) - 1 = ((mat (r + 1) c : Nat) : Int) ∧
          ((mat (r + 1) (c + 1) : Nat) : Int) ≤ ((mat r c : Nat) : Int) ∧
          ((mat (r + 1) (c + 1) : Nat) : Int) ≤ ((mat r (c + 1) : Nat) : Int)) then
        (fun t : Nat × Nat × Nat =>
          if sw then (t.1 + 1, t.2.1, t.2.2) else (t.1, t.2.1 + 1, t.2.2))
          (btWalk L R mat sw fuel ((r : Int) + 1) (c : Int))
      else if ((mat (r + 1) (c + 1) : Int) - 1 = ((mat r (c + 1) : Nat) : Int) ∧
          ((mat (r + 1) (c + 1) : Nat) : Int) ≤ ((mat r c : Nat) : Int) ∧
          ((mat (r + 1) (c + 1) : Nat) : Int) ≤ ((mat (r + 1) c : Nat) : Int)) then
        (fun t : Nat × Nat × Nat =>
          if sw then (t.1, t.2.1 + 1, t.2.2) else (t.1 + 1, t.2.1, t.2.2))
          (btWalk L R mat sw fuel (r : Int) ((c : Int) + 1))
      else
        (fun t : Nat × Nat × Nat => (t.1, t.2.1, t.2.2 + 1))
          (btWalk L R mat sw fuel (r : Int) (c : Int)) := by
  have hrt : (((r : Int) + 1)).toNat = r + 1 := by omega
  have hct : (((c : Int) + 1)).toNat = c + 1 := by omega
  have hr1 : ((r : Int) + 1 - 1) = (r : Int) := by omega
  have hc1 : ((c : Int) + 1 - 1) = (c : Int) := by omega
  have hrt1 : (((r : Int) + 1 - 1)).toNat = r := by omega
  have hct1 : (((c : Int) + 1 - 1)).toNat = c := by omega
  simp only [btWalk, dAtLeft_succ, dAtTop_succ, dAtDiag_succ, hrt, hct, hrt1, hct1,
    hr1, hc1]
  rw [if_neg (by omega), if_neg (by rintro ⟨h3, -, -⟩; omega)]
  by_cases hch : L.getD c nullChar = R.getD r nullChar
  · rw [if_pos ⟨by omega, by omega, hch⟩, if_pos hch]
  · rw [if_neg (by rintro ⟨-, -, h3⟩; exact hch h3), if_neg hch]
    by_cases hc1b : ((mat (r + 1) (c + 1) : Int) - 1 = ((mat (r + 1) c : Nat) : Int) ∧
        ((mat (r + 1) (c + 1) : Nat) : Int) ≤ ((mat r c : Nat) : Int) ∧
        ((mat (r + 1) (c + 1) : Nat) : Int) ≤ ((mat r (c + 1) : Nat) : Int))
    · rw [if_pos (Or.inl hc1b), if_pos hc1b]
    · rw [if_neg (by rintro (h3 | ⟨h4, -⟩); exact hc1b h3; omega), if_neg hc1b]
      by_cases hc2b : ((mat (r + 1) (c + 1) : Int) - 1 = ((mat r (c + 1) : Nat) : Int) ∧
          ((mat (r + 1) (c + 1) : Nat) : Int) ≤ ((mat r c : Nat) : Int) ∧
          ((mat (r + 1) (c + 1) : Nat) : Int) ≤ ((mat (r + 1) c : Nat) : Int))
      · rw [if_pos (Or.inl hc2b), if_pos hc2b]
      · rw [if_neg (by rintro (h3 | ⟨h4, -⟩); exact hc2b h3; omega), if_neg hc2b]

theorem btWalk_insert_delete_diff (L R : Str) (mat : Nat → Nat → Nat)
    (sw : Bool) (m : Nat) (hb : ∀ r : Nat, r ≤ m → mat r 0 = r) :
    ∀ (fuel row col : Nat), row ≤ m → row + col < fuel →
      ((btWalk L R mat sw fuel (row : Int) (col : Int)).1 : Int) -
        ((btWalk L R mat sw fuel (row : Int) (col : Int)).2.1 : Int) =
        if sw then (col : Int) - row else (row : Int) - col := by
  intro fuel
  induction fuel with
  | zero => intro row col _ h; omega
  | succ f ih =>
    intro row col hrow hfuel
    match row, col with
    | 0, 0 =>
      push_cast
      rw [btWalk_zero_zero]
      cases sw <;> simp
    | 0, c + 1 =>
      push_cast
      rw [btWalk_row_zero]
      have hi := ih 0 c (by omega) (by omega)
      push_cast at hi
      cases sw <;> simp at hi ⊢ <;> omega
    | r + 1, 0 =>
      push_cast
      rw [btWalk_col_zero L R mat sw f r (hb (r + 1) hrow) (hb r (by omega))]
      have hi := ih r 0 (by omega) (by omega)
      push_cast at hi
      cases sw <;> simp at hi ⊢ <;> omega
    | r + 1, c + 1 =>
      push_cast
      rw [btWalk_succ_succ]
      by_cases hch : L.getD c nullChar = R.getD r nullChar
      · rw [if_pos hch]
        have hi := ih r c (by omega) (by omega)
        push_cast at hi
        cases sw <;> simp at hi ⊢ <;> omega
      · rw [if_neg hch]
        by_cases h1 : ((mat (r + 1) (c + 1) : Int) - 1 = ((mat (r + 1) c : Nat) : Int) ∧
            ((mat (r + 1) (c + 1) : Nat) : Int) ≤ ((mat r c : Nat) : Int) ∧
            ((mat (r + 1) (c + 1) : Nat) : Int) ≤ ((mat r (c + 1) : Nat) : Int))
        · rw [if_pos h1]
          have hi := ih (r + 1) c hrow (by omega)
          push_cast at hi
          cases sw <;> simp at hi ⊢ <;> omega
        · rw [if_neg h1]
          by_cases h2 : ((mat (r + 1) (c + 1) : Int) - 1 = ((mat r (c + 1) : Nat) : Int) ∧
              ((mat (r + 1) (c + 1) : Nat) : Int) ≤ ((mat r c : Nat) : Int) ∧
              ((mat (r + 1) (c + 1) : Nat) : Int) ≤ ((mat (r + 1) c : Nat) : Int))
          · rw [if_pos h2]
            have hi := ih r (c + 1) (by omega) (by omega)
            push_cast at hi
            cases sw <;> simp at hi ⊢ <;> omega
          · rw [if_neg h2]
            have hi := ih r c (by omega) (by omega)
            push_cast at hi
            cases sw <;> simp at hi ⊢ <;> omega

theorem findDetailedResults_insert_delete_diff (L R : Str)
    (mat : Nat → Nat → Nat) (sw : Bool)
    (hb : ∀ r : Nat, r ≤ R.length → mat r 0 = r) :
    ((findDetailedResults L R mat sw).insertCount : Int) -
      ((findDetailedResults L R mat sw).deleteCount : Int) =
      if sw then (L.length : Int) - R.length else (R.length : Int) - L.length := by
  unfold findDetailedResults
  exact btWalk_insert_delete_diff L R mat sw R.length hb
    (R.length + L.length + 1) R.length L.length (le_refl _) (by omega)

theorem unlLoop_length (L : Str) :
    ∀ (rcs : List Char) (p : List Nat) (j : Nat),
      (unlLoop L rcs p j).length = rcs.length := by
  intro rcs
  induction rcs with
  | nil => intro p j; rfl
  | cons rj rest ih => intro p j; simp [unlLoop, ih]

theorem unlLoop_getD_head (L : Str) :
    ∀ (rcs : List Char) (p : List Nat) (j k : Nat), k < rcs.length →
      (((unlLoop L rcs p j).getD k []).getD 0 0) = j + k := by
  intro rcs
  induction rcs with
  | nil => intro p j k hk; simp at hk
  | cons rj rest ih =>
    intro p j k hk
    match k with
    | 0 => simp [unlLoop, unlNextRow]
    | k + 1 =>
      have := ih (unlNextRow L rj p j) (j + 1) k (by simpa using hk)
      simp only [unlLoop, List.getD_cons_succ]
      omega

theorem matrixU_border (L R : Str) :
    ∀ r : Nat, r ≤ R.length → mget (matrixU L R) r 0 = r := by
  intro r hr
  match r with
  | 0 =>
    show ((List.range (L.length + 1)).getD 0 0) = 0
    simp [List.getD_eq_getElem?_getD, List.getElem?_range (by omega : 0 < L.length + 1)]
  | k + 1 =>
    show (((unlLoop L R (List.range (L.length + 1)) 1).getD k []).getD 0 0) = k + 1
    have := unlLoop_getD_head L R (List.range (L.length + 1)) 1 k (by omega)
    omega

theorem stripeGo_row_head (L : Str) (rj : Char) (p : List Nat) :
    ∀ (count i : Nat) (d row : List Nat), 1 ≤ i →
      ((stripeGo L rj p count i d row).2).getD 0 0 = row.getD 0 0 := by
  intro count
  induction count with
  | zero => intro i d row _; rfl
  | succ ct ih =>
    intro i d row hi
    unfold stripeGo
    rw [ih (i + 1) _ _ (by omega)]
    rw [List.getD_eq_getElem?_getD, List.getElem?_set_ne (by omega),
      ← List.getD_eq_getElem?_getD]

theorem getD_set_self {α : Type} (l : List α) (i : Nat) (x dflt : α)
    (h : i < l.length) : (l.set i x).getD i dflt = x := by
  rw [List.getD_eq_getElem?_getD, List.getElem?_set_eq_of_lt _ h, Option.getD_some]

theorem getD_set_other {α : Type} (l : List α) (i j : Nat) (x dflt : α)
    (h : i ≠ j) : (l.set i x).getD j dflt = l.getD j dflt := by
  rw [List.getD_eq_getElem?_getD, List.getElem?_set_ne h, ← List.getD_eq_getElem?_getD]

theorem limLoop_border (L R : Str) (thr m : Nat) :
    ∀ (count j : Nat) (p d : List Nat) (mat : List (List Nat))
      (pm : List Nat × List (List Nat)),
      (∀ r : Nat, r ≤ m → ((mat.getD r []).getD 0 0) = r) →
      limLoop L R thr count j p d mat = some pm →
      ∀ r : Nat, r ≤ m → ((pm.2.getD r []).getD 0 0) = r := by
  intro count
  induction count with
  | zero =>
    intro j p d mat pm hinv heq r hr
    simp only [limLoop] at heq
    cases heq
    exact hinv r hr
  | succ ct ih =>
    intro j p d mat pm hinv heq r hr
    simp only [limLoop] at heq
    split at heq <;> split at heq <;>
      first
      | exact Option.noConfusion heq
      | (refine ih _ _ _ _ _ ?_ heq r hr
         intro s hs
         by_cases hsj : s = j
         · subst hsj
           by_cases hlen : s < mat.length
           · rw [getD_set_self _ _ _ _ hlen,
               stripeGo_row_head L _ _ _ _ _ _ (le_max_left 1 _)]
             exact hinv s hs
           · rw [List.set_eq_of_length_le (by omega)]
             exact hinv s hs
         · rw [getD_set_other _ _ _ _ _ (fun h => hsj h.symm)]
           exact hinv s hs)

theorem limMat0_border (n m : Nat) :
    ∀ r : Nat, r ≤ m → (((limMat0 n m).getD r []).getD 0 0) = r := by
  intro r hr
  match r with
  | 0 =>
    show ((List.range (n + 1)).getD 0 0) = 0
    simp [List.getD_eq_getElem?_getD, List.getElem?_range (by omega : 0 < n + 1)]
  | k + 1 =>
    show ((((List.range' 1 m).map fun j => j :: List.replicate n 0).getD k []).getD 0 0)
      = k + 1
    have hrow : ((List.range' 1 m).map fun j => j :: List.replicate n 0).getD k [] =
        (1 + 1 * k) :: List.replicate n 0 := by
      rw [List.getD_eq_getElem?_getD, List.getElem?_map,
        List.getElem?_range' 1 1 (by omega : k < m)]
      rfl
    rw [hrow, List.getD_cons_zero]
    omega

/-- C5: whenever the engine returns a result with `distance >= 0` (in either
mode), the reported counts describe transforming the original left argument
into the original right argument — the internal operand swap does not leak:
`insertCount - deleteCount = length right - length left`. -/
theorem claim5_swap_corrected_counts (a b : Str) (t : Nat) :
    (0 ≤ (unlimitedCompare a b).distance →
      ((unlimitedCompare a b).insertCount : Int) -
        ((unlimitedCompare a b).deleteCount : Int) =
        (b.length : Int) - (a.length : Int)) ∧
    (0 ≤ (limitedCompare a b t).distance →
      ((limitedCompare a b t).insertCount : Int) -
        ((limitedCompare a b t).deleteCount : Int) =
        (b.length : Int) - (a.length : Int)) := by
  constructor
  · unfold unlimitedCompare unlimitedCore
    split_ifs with h1 h2 h3
    · intro _; simp [h1]
    · intro _; simp [h2]
    · intro _
      have := findDetailedResults_insert_delete_diff b a
        (mget (matrixU b a)) true (matrixU_border b a)
      rw [this, if_pos rfl]
    · intro _
      have := findDetailedResults_insert_delete_diff a b
        (mget (matrixU a b)) false (matrixU_border a b)
      rw [this, if_neg (by simp)]
  · unfold limitedCompare
    split_ifs with h1 h2 h3 h4 h5
    · intro _; simp [h1]
    · intro h; exact absurd h (by norm_num)
    · intro _; simp [h3]
    · intro h; exact absurd h (by norm_num)
    · unfold limitedCore
      split
      · intro h; exact absurd h (by norm_num)
      · rename_i pm hpm
        split_ifs with hp
        · intro _
          have hbord := limLoop_border b a t a.length a.length 1
            (limP0 b.length t) (List.replicate (b.length + 1) maxValue)
            (limMat0 b.length a.length) pm
            (limMat0_border b.length a.length) hpm
          have := findDetailedResults_insert_delete_diff b a (mget pm.2) true hbord
          rw [this, if_pos rfl]
        · intro h; exact absurd h (by norm_num)
    · unfold limitedCore
      split
      · intro h; exact absurd h (by norm_num)
      · rename_i pm hpm
        split_ifs with hp
        · intro _
          have hbord := limLoop_border a b t b.length b.length 1
            (limP0 a.length t) (List.replicate (a.length + 1) maxValue)
            (limMat0 a.length b.length) pm
            (limMat0_border a.length b.length) hpm
          have := findDetailedResults_insert_delete_diff a b (mget pm.2) false hbord
          rw [this, if_neg (by simp)]
        · intro h; exact absurd h (by norm_num)

set_option maxRecDepth 4000 in
theorem claim5_witness :
    ((unlimitedCompare ['a', 'b'] ['b']).insertCount : Int) -
      ((unlimitedCompare ['a', 'b'] ['b']).deleteCount : Int) =
      ((1 : Nat) : Int) - ((2 : Nat) : Int) ∧
    ((limitedCompare ['a', 'b'] ['b'] 2).insertCount : Int) -
      ((limitedCompare ['a', 'b'] ['b'] 2).deleteCount : Int) =
      ((1 : Nat) : Int) - ((2 : Nat) : Int) :=
  ⟨(claim5_swap_corrected_counts ['a', 'b'] ['b'] 2).1 (by decide),
   (claim5_swap_corrected_counts ['a', 'b'] ['b'] 2).2 (by decide)⟩

theorem jwOuter_snd_length (mx : Str) (rng2 : Nat) :
    ∀ (cs : List Char) (mi : Nat) (flags : List Nat),
      (JaroWinklerDistance.jwOuter mx rng2 cs mi flags).2.length = cs.length := by
  intro cs
  induction cs with
  | nil => intro mi flags; rfl
  | cons c rest ih =>
    intro mi flags
    unfold JaroWinklerDistance.jwOuter
    dsimp only
    split <;> simp [ih]

theorem jwPrefixGo_le (first second : Str) :
    ∀ (rem mi : Nat), JaroWinklerDistance.jwPrefixGo first second rem mi ≤ rem := by
  intro rem
  induction rem with
  | zero => intro mi; exact le_refl 0
  | succ k ih =>
    intro mi
    unfold JaroWinklerDistance.jwPrefixGo
    split_ifs
    · have := ih (mi + 1); omega
    · omega

theorem jwMatches_bounds (first second : Str) :
    (JaroWinklerDistance.jwMatches first second).1 ≤ first.length ∧
    (JaroWinklerDistance.jwMatches first second).1 ≤ second.length ∧
    (JaroWinklerDistance.jwMatches first second).2.1 ≤
      (JaroWinklerDistance.jwMatches first second).1 ∧
    (JaroWinklerDistance.jwMatches first second).2.2 ≤ 4 := by
  unfold JaroWinklerDistance.jwMatches
  by_cases hlen : second.length < first.length <;>
    simp only [hlen, if_true, if_false, reduceIte]
  · refine ⟨?_, ?_, ?_, ?_⟩
    · have h1 := List.length_filterMap_le (id : Option Nat → Option Nat)
        (JaroWinklerDistance.jwOuter first (first.length - 2) second 0 []).2
      have h2 := jwOuter_snd_length first (first.length - 2) second 0 []
      omega
    · have h1 := List.length_filterMap_le (id : Option Nat → Option Nat)
        (JaroWinklerDistance.jwOuter first (first.length - 2) second 0 []).2
      have h2 := jwOuter_snd_length first (first.length - 2) second 0 []
      omega
    · calc _ ≤ _ := List.length_filter_le _ _
        _ = _ := List.length_range _
    · have h4 := jwPrefixGo_le first second (min 4 second.length) 0
      omega
  · refine ⟨?_, ?_, ?_, ?_⟩
    · have h1 := List.length_filterMap_le (id : Option Nat → Option Nat)
        (JaroWinklerDistance.jwOuter second (second.length - 2) first 0 []).2
      have h2 := jwOuter_snd_length second (second.length - 2) first 0 []
      omega
    · have h1 := List.length_filterMap_le (id : Option Nat → Option Nat)
        (JaroWinklerDistance.jwOuter second (second.length - 2) first 0 []).2
      have h2 := jwOuter_snd_length second (second.length - 2) first 0 []
      omega
    · calc _ ≤ _ := List.length_filter_le _ _
        _ = _ := List.length_range _
    · have h4 := jwPrefixGo_le first second (min 4 first.length) 0
      omega

/-- C8: `jaroWinklerSimilarity` returns `0` for two empty inputs and when
exactly one input is empty, and for every pair of inputs the score lies in
`[0, 1]` (exact rational arithmetic). -/
theorem claim8_jw_score_bounds :
    JaroWinklerDistance.apply [] [] = 0 ∧
    JaroWinklerDistance.apply [] ['a'] = 0 ∧
    ∀ l r : Str, 0 ≤ JaroWinklerDistance.apply l r ∧
      JaroWinklerDistance.apply l r ≤ 1 := by
  refine ⟨rfl, rfl, ?_⟩
  intro l r
  obtain ⟨hm1, hm2, hht, hpre⟩ := jwMatches_bounds l r
  simp only [JaroWinklerDistance.apply]
  split_ifs with h0 h7
  · norm_num
  all_goals
    have hM1 : 1 ≤ (JaroWinklerDistance.jwMatches l r).1 :=
      Nat.one_le_iff_ne_zero.mpr h0
    have hL1 : (0 : ℚ) < (l.length : ℚ) := by
      have : 1 ≤ l.length := le_trans hM1 hm1
      exact_mod_cast Nat.pos_of_ne_zero (by omega)
    have hL2 : (0 : ℚ) < (r.length : ℚ) := by
      have : 1 ≤ r.length := le_trans hM1 hm2
      exact_mod_cast Nat.pos_of_ne_zero (by omega)
    have hMq : (1 : ℚ) ≤ ((JaroWinklerDistance.jwMatches l r).1 : ℚ) := by
      exact_mod_cast hM1
    have hm1q : ((JaroWinklerDistance.jwMatches l r).1 : ℚ) ≤ (l.length : ℚ) := by
      exact_mod_cast hm1
    have hm2q : ((JaroWinklerDistance.jwMatches l r).1 : ℚ) ≤ (r.length : ℚ) := by
      exact_mod_cast hm2
    have hhtq : ((JaroWinklerDistance.jwMatches l r).2.1 : ℚ) ≤
        ((JaroWinklerDistance.jwMatches l r).1 : ℚ) := by exact_mod_cast hht
    have hht0 : (0 : ℚ) ≤ ((JaroWinklerDistance.jwMatches l r).2.1 : ℚ) := by
      positivity
    have hpreq : ((JaroWinklerDistance.jwMatches l r).2.2 : ℚ) ≤ 4 := by
      exact_mod_cast hpre
    have hpre0 : (0 : ℚ) ≤ ((JaroWinklerDistance.jwMatches l r).2.2 : ℚ) := by
      positivity
    have ht1a : (0 : ℚ) ≤ ((JaroWinklerDistance.jwMatches l r).1 : ℚ) / (l.length : ℚ) :=
      div_nonneg (by linarith) (le_of_lt hL1)
    have ht1b : ((JaroWinklerDistance.jwMatches l r).1 : ℚ) / (l.length : ℚ) ≤ 1 :=
      (div_le_one hL1).mpr hm1q
    have ht2a : (0 : ℚ) ≤ ((JaroWinklerDistance.jwMatches l r).1 : ℚ) / (r.length : ℚ) :=
      div_nonneg (by linarith) (le_of_lt hL2)
    have ht2b : ((JaroWinklerDistance.jwMatches l r).1 : ℚ) / (r.length : ℚ) ≤ 1 :=
      (div_le_one hL2).mpr hm2q
    have hMpos : (0 : ℚ) < ((JaroWinklerDistance.jwMatches l r).1 : ℚ) := by linarith
    have ht3a : (0 : ℚ) ≤ (((JaroWinklerDistance.jwMatches l r).1 : ℚ) -
        ((JaroWinklerDistance.jwMatches l r).2.1 : ℚ) / 2) /
        ((JaroWinklerDistance.jwMatches l r).1 : ℚ) :=
      div_nonneg (by linarith) (le_of_lt hMpos)
    have ht3b : (((JaroWinklerDistance.jwMatches l r).1 : ℚ) -
        ((JaroWinklerDistance.jwMatches l r).2.1 : ℚ) / 2) /
        ((JaroWinklerDistance.jwMatches l r).1 : ℚ) ≤ 1 :=
      (div_le_one hMpos).mpr (by linarith)
  · exact ⟨by linarith, by linarith⟩
  · constructor
    · have h1j : (0 : ℚ) ≤ 1 - (((JaroWinklerDistance.jwMatches l r).1 : ℚ) / (l.length : ℚ)
        + ((JaroWinklerDistance.jwMatches l r).1 : ℚ) / (r.length : ℚ)
        + (((JaroWinklerDistance.jwMatches l r).1 : ℚ) -
          ((JaroWinklerDistance.jwMatches l r).2.1 : ℚ) / 2) /
          ((JaroWinklerDistance.jwMatches l r).1 : ℚ)) / 3 := by linarith
      nlinarith [mul_nonneg (mul_nonneg (by norm_num : (0:ℚ) ≤ 1/10) hpre0) h1j]
    · have h1j : (0 : ℚ) ≤ 1 - (((JaroWinklerDistance.jwMatches l r).1 : ℚ) / (l.length : ℚ)
        + ((JaroWinklerDistance.jwMatches l r).1 : ℚ) / (r.length : ℚ)
        + (((JaroWinklerDistance.jwMatches l r).1 : ℚ) -
          ((JaroWinklerDistance.jwMatches l r).2.1 : ℚ) / 2) /
          ((JaroWinklerDistance.jwMatches l r).1 : ℚ)) / 3 := by linarith
      nlinarith [mul_le_mul_of_nonneg_right
        (by linarith : (1:ℚ)/10 * ((JaroWinklerDistance.jwMatches l r).2.2 : ℚ) ≤ 1) h1j]

theorem matFun_symm (L R : Str) : ∀ j i, matFun L R j i = matFun R L i j := by
  have H : ∀ n j i, j + i ≤ n → matFun L R j i = matFun R L i j := by
    intro n
    induction n with
    | zero =>
      intro j i h
      have hj : j = 0 := by omega
      have hi : i = 0 := by omega
      subst hj; subst hi; simp [matFun]
    | succ n ih =>
      intro j i h
      match j, i with
      | 0, 0 => simp [matFun]
      | 0, i + 1 => simp [matFun]
      | j + 1, 0 => simp [matFun]
      | j + 1, i + 1 =>
        simp only [matFun]
        rw [ih (j + 1) i (by omega), ih j (i + 1) (by omega), ih j i (by omega)]
        rw [show (if R.getD j nullChar = L.getD i nullChar then 0 else 1) =
          (if L.getD i nullChar = R.getD j nullChar then 0 else 1) from
          if_congr eq_comm rfl rfl]
        rw [min_comm (matFun R L i (j + 1) + 1) (matFun R L (i + 1) j + 1)]
  intro j i
  exact H (j + i) j i (le_refl _)

theorem btWalk_total_flag (L R : Str) (mat : Nat → Nat → Nat) :
    ∀ (fuel : Nat) (row col : Int),
      (btWalk L R mat true fuel row col).1 + (btWalk L R mat true fuel row col).2.1 +
        (btWalk L R mat true fuel row col).2.2 =
      (btWalk L R mat false fuel row col).1 + (btWalk L R mat false fuel row col).2.1 +
        (btWalk L R mat false fuel row col).2.2 := by
  intro fuel
  induction fuel with
  | zero => intro row col; rfl
  | succ f ih =>
    intro row col
    simp only [btWalk]
    split
    · rfl
    split
    · rfl
    split
    · exact ih _ _
    split
    · simp only [if_true, if_false, Bool.false_eq_true, reduceIte]
      have := ih row (col - 1)
      omega
    split
    · simp only [if_true, if_false, Bool.false_eq_true, reduceIte]
      have := ih (row - 1) col
      omega
    · simp only
      have := ih (row - 1) (col - 1)
      omega

theorem unlGo_eq (L R : Str) (j : Nat) :
    ∀ (d k : Nat), k + d = L.length →
      unlGo (R.getD j nullChar) (L.drop k)
          ((List.range' (k + 1) d).map (matFun L R j)) (matFun L R j k)
          (matFun L R (j + 1) k) =
        (List.range' (k + 1) d).map (matFun L R (j + 1)) := by
  intro d
  induction d with
  | zero =>
    intro k hk
    rw [List.drop_eq_nil_of_le (by omega)]
    rfl
  | succ d ihd =>
    intro k hk
    have hkL : k < L.length := by omega
    rw [List.drop_eq_getElem_cons hkL, List.range'_succ]
    simp only [List.map_cons]
    have hc : L[k] = L.getD k nullChar := (List.getD_eq_getElem L nullChar hkL).symm
    simp only [unlGo, hc]
    congr 1
    · simp only [matFun]
    · have := ihd (k + 1) (by omega)
      simpa [matFun] using this

theorem matFun_zero_right (L R : Str) (j : Nat) : matFun L R j 0 = j := by
  cases j <;> simp [matFun]

theorem matFun_zero_left (L R : Str) (i : Nat) : matFun L R 0 i = i := by
  simp [matFun]

theorem unlNextRow_eq (L R : Str) (j : Nat) :
    unlNextRow L (R.getD j nullChar)
        ((List.range (L.length + 1)).map (matFun L R j)) (j + 1) =
      (List.range (L.length + 1)).map (matFun L R (j + 1)) := by
  unfold unlNextRow
  rw [List.range_eq_range', List.range'_succ]
  simp only [List.map_cons, List.drop_succ_cons, List.drop_zero, List.headD_cons]
  congr 1
  · rw [matFun_zero_right]
  · have := unlGo_eq L R j L.length 0 (by omega)
    rw [List.drop_zero,
      show matFun L R (j + 1) 0 = j + 1 from matFun_zero_right L R (j + 1)] at this
    simpa using this

theorem unlLoop_eq (L R : Str) :
    ∀ (d j : Nat), j + d = R.length →
      unlLoop L (R.drop j) ((List.range (L.length + 1)).map (matFun L R j)) (j + 1) =
        (List.range' (j + 1) d).map
          (fun jj => (List.range (L.length + 1)).map (matFun L R jj)) := by
  intro d
  induction d with
  | zero =>
    intro j hj
    rw [List.drop_eq_nil_of_le (by omega)]
    rfl
  | succ d ihd =>
    intro j hj
    have hjR : j < R.length := by omega
    rw [List.drop_eq_getElem_cons hjR, List.range'_succ]
    simp only [unlLoop]
    have hc : R[j] = R.getD j nullChar := (List.getD_eq_getElem R nullChar hjR).symm
    rw [hc, unlNextRow_eq]
    congr 1
    have := ihd (j + 1) (by omega)
    simpa using this

theorem matrixU_rows (L R : Str) :
    matrixU L R = (List.range' 0 (R.length + 1)).map
      (fun jj => (List.range (L.length + 1)).map (matFun L R jj)) := by
  unfold matrixU
  rw [List.range'_succ]
  have h0 : (List.range (L.length + 1)).map (matFun L R 0) =
      List.range (L.length + 1) := by
    have h : (List.range (L.length + 1)).map (matFun L R 0) =
        (List.range (L.length + 1)).map id :=
      List.map_congr_left (fun x _ => matFun_zero_left L R x)
    rw [h, List.map_id]
  congr 1
  · exact h0.symm
  · have := unlLoop_eq L R R.length 0 (by omega)
    rw [List.drop_zero, h0] at this
    simpa using this

theorem mget_matrixU (L R : Str) (r c : Nat) :
    mget (matrixU L R) r c =
      if r ≤ R.length ∧ c ≤ L.length then matFun L R r c else 0 := by
  rw [mget, matrixU_rows]
  by_cases hr : r ≤ R.length
  · have hrow : ((List.range' 0 (R.length + 1)).map
        (fun jj => (List.range (L.length + 1)).map (matFun L R jj))).getD r [] =
        (List.range (L.length + 1)).map (matFun L R r) := by
      rw [List.getD_eq_getElem _ _ (by simp; omega)]
      simp [List.getElem_range']
    rw [hrow]
    by_cases hcc : c ≤ L.length
    · rw [if_pos ⟨hr, hcc⟩, List.getD_eq_getElem _ _ (by simp; omega)]
      simp [List.getElem_range]
    · rw [if_neg (by tauto)]
      exact List.getD_eq_default _ _ (by simp; omega)
  · rw [if_neg (by tauto)]
    have h1 : ((List.range' 0 (R.length + 1)).map
        (fun jj => (List.range (L.length + 1)).map (matFun L R jj))).getD r [] = [] :=
      List.getD_eq_default _ _ (by simp; omega)
    rw [h1]
    rfl

theorem mget_matrixU_transpose (L R : Str) (r c : Nat) :
    mget (matrixU R L) r c = mget (matrixU L R) c r := by
  rw [mget_matrixU, mget_matrixU, matFun_symm R L r c]
  exact if_congr and_comm rfl rfl

theorem btWalk_total_transpose (L R : Str) (mat matT : Nat → Nat → Nat)
    (hT : ∀ r c, matT r c = mat c r) :
    ∀ (fuel : Nat) (row col : Int),
      (btWalk R L matT false fuel col row).1 +
        (btWalk R L matT false fuel col row).2.1 +
        (btWalk R L matT false fuel col row).2.2 =
      (btWalk L R mat false fuel row col).1 +
        (btWalk L R mat false fuel row col).2.1 +
        (btWalk L R mat false fuel row col).2.2 := by
  intro fuel
  induction fuel with
  | zero => intro row col; rfl
  | succ f ih =>
    intro row col
    have e1 : dAtLeft matT col row = dAtTop mat row col := by
      unfold dAtLeft dAtTop
      rw [hT]
    have e2 : dAtTop matT col row = dAtLeft mat row col := by
      unfold dAtLeft dAtTop
      rw [hT]
    have e3 : dAtDiag matT col row = dAtDiag mat row col := by
      unfold dAtDiag
      rw [hT]
      exact if_congr and_comm rfl rfl
    have e4 : ((matT col.toNat row.toNat : Nat) : Int) =
        ((mat row.toNat col.toNat : Nat) : Int) := by rw [hT]
    simp only [btWalk, e1, e2, e3, e4, Bool.false_eq_true, if_false]
    by_cases hg : 0 ≤ row ∧ 0 ≤ col
    · rw [if_neg (not_not_intro ⟨hg.2, hg.1⟩), if_neg (not_not_intro hg)]
      by_cases hbrk : dAtLeft mat row col = -1 ∧ dAtTop mat row col = -1 ∧
          dAtDiag mat row col = -1
      · rw [if_pos ⟨hbrk.2.1, hbrk.1, hbrk.2.2⟩, if_pos hbrk]
      · rw [if_neg (by tauto), if_neg hbrk]
        by_cases hch : 0 < col ∧ 0 < row ∧
            L.getD (col - 1).toNat nullChar = R.getD (row - 1).toNat nullChar
        · rw [if_pos ⟨hch.2.1, hch.1, hch.2.2.symm⟩, if_pos hch]
          exact ih (row - 1) (col - 1)
        · rw [if_neg (by rintro ⟨h1, h2, h3⟩; exact hch ⟨h2, h1, h3.symm⟩),
            if_neg hch]
          have hdata : (0 : Int) ≤ ((mat row.toNat col.toNat : Nat) : Int) :=
            Int.natCast_nonneg _
          by_cases hc1 : (((mat row.toNat col.toNat : Nat) : Int) - 1 =
              dAtLeft mat row col ∧
              ((mat row.toNat col.toNat : Nat) : Int) ≤ dAtDiag mat row col ∧
              ((mat row.toNat col.toNat : Nat) : Int) ≤ dAtTop mat row col) ∨
              (dAtDiag mat row col = -1 ∧ dAtTop mat row col = -1)
          · by_cases hc2 : (((mat row.toNat col.toNat : Nat) : Int) - 1 =
                dAtTop mat row col ∧
                ((mat row.toNat col.toNat : Nat) : Int) ≤ dAtDiag mat row col ∧
                ((mat row.toNat col.toNat : Nat) : Int) ≤ dAtLeft mat row col) ∨
                (dAtDiag mat row col = -1 ∧ dAtLeft mat row col = -1)
            · exfalso
              rcases hc1 with ⟨ha, hb1, hb2⟩ | ⟨hcd, hct⟩ <;>
                rcases hc2 with ⟨ha2, hb21, hb22⟩ | ⟨hcd2, hcl2⟩
              · omega
              · omega
              · omega
              · exact hbrk ⟨hcl2, hct, hcd⟩
            · rw [if_neg hc2, if_pos hc1, if_pos hc1]
              have := ih row (col - 1)
              dsimp only
              omega
          · by_cases hc2 : (((mat row.toNat col.toNat : Nat) : Int) - 1 =
                dAtTop mat row col ∧
                ((mat row.toNat col.toNat : Nat) : Int) ≤ dAtDiag mat row col ∧
                ((mat row.toNat col.toNat : Nat) : Int) ≤ dAtLeft mat row col) ∨
                (dAtDiag mat row col = -1 ∧ dAtLeft mat row col = -1)
            · rw [if_pos hc2, if_neg hc1, if_pos hc2]
              have := ih (row - 1) col
              dsimp only
              omega
            · rw [if_neg hc2, if_neg hc1, if_neg hc1, if_neg hc2]
              have := ih (row - 1) (col - 1)
              dsimp only
              omega
    · rw [if_pos (by tauto : ¬(0 ≤ col ∧ 0 ≤ row)), if_pos hg]

/-- C7: the unbounded Levenshtein operation is symmetric in its total
distance: `levenshteinDistance(a,b).distance = levenshteinDistance(b,a).distance`
for all `a`, `b`. (When the operands are exchanged, either the internal swap
makes both calls run on the same matrix with only the `swapped` flag
differing — which routes counter increments but not their total — or, for
equal lengths, the two backtraces mirror each other cell by cell on
transposed matrices.) -/
theorem claim7_distance_symmetric (a b : Str) :
    (unlimitedCompare a b).distance = (unlimitedCompare b a).distance := by
  unfold unlimitedCompare
  by_cases ha : a.length = 0 <;> by_cases hb : b.length = 0
  · rw [if_pos ha, if_pos hb]
    simp [ha, hb]
  · rw [if_pos ha, if_neg hb, if_pos ha]
  · rw [if_neg ha, if_pos hb, if_pos hb]
  · rw [if_neg ha, if_neg hb, if_neg hb, if_neg ha]
    rcases Nat.lt_trichotomy a.length b.length with hlt | heq | hgt
    · rw [if_neg (by omega), if_pos hlt]
      simp only [unlimitedCore, findDetailedResults]
      have := btWalk_total_flag a b (mget (matrixU a b))
        (b.length + a.length + 1) (b.length : Int) (a.length : Int)
      exact_mod_cast this.symm
    · rw [if_neg (by omega), if_neg (by omega)]
      simp only [unlimitedCore, findDetailedResults]
      have hT : ∀ r c, mget (matrixU b a) r c = mget (matrixU a b) c r :=
        mget_matrixU_transpose a b
      have := btWalk_total_transpose a b (mget (matrixU a b)) (mget (matrixU b a))
        hT (b.length + a.length + 1) (b.length : Int) (a.length : Int)
      rw [show a.length + b.length + 1 = b.length + a.length + 1 from by omega]
      exact_mod_cast this.symm
    · rw [if_pos hgt, if_neg (by omega)]
      simp only [unlimitedCore, findDetailedResults]
      have := btWalk_total_flag b a (mget (matrixU b a))
        (a.length + b.length + 1) (a.length : Int) (b.length : Int)
      exact_mod_cast this

set_option maxRecDepth 4000 in
theorem claim3_witness :
    (unlimitedCompare ['a', 'b'] ['b']).distance =
      (((unlimitedCompare ['a', 'b'] ['b']).insertCount +
        (unlimitedCompare ['a', 'b'] ['b']).deleteCount +
        (unlimitedCompare ['a', 'b'] ['b']).substituteCount : Nat) : Int) ∧
    (limitedCompare ['a', 'b'] ['b'] 2).distance =
      (((limitedCompare ['a', 'b'] ['b'] 2).insertCount +
        (limitedCompare ['a', 'b'] ['b'] 2).deleteCount +
        (limitedCompare ['a', 'b'] ['b'] 2).substituteCount : Nat) : Int) :=
  ⟨(claim3_counts_consistency ['a', 'b'] ['b'] 2).1 (by decide),
   (claim3_counts_consistency ['a', 'b'] ['b'] 2).2 (by decide)⟩

set_option maxRecDepth 4000 in
/-- C1 fails on the code: at `left = "aa"`, `right = "aab"`, `threshold = 1`
the true edit distance is `1 <= threshold`, yet `limitedCompare` returns a
non-sentinel result with distance `2` (1 insert + 1 substitute) instead of
the true distance. -/
theorem claim1_failing_input :
    limitedCompare ['a', 'a'] ['a', 'a', 'b'] 1 =
      { distance := 2, insertCount := 1, deleteCount := 0, substituteCount := 1 } ∧
    levSpec ['a', 'a'] ['a', 'a', 'b'] = 1 := by decide

set_option maxRecDepth 4000 in
/-- C2 fails on the code: for `"aba"` vs `"bab"` the forward pass fills the
final matrix cell with the true distance `2`, but the backtrace counts
3 substitutions, so `insert + delete + substitute = 3 ≠ 2`. -/
theorem claim2_failing_input :
    unlimitedCompare ['a', 'b', 'a'] ['b', 'a', 'b'] =
      { distance := 3, insertCount := 0, deleteCount := 0, substituteCount := 3 } ∧
    mget (matrixU ['a', 'b', 'a'] ['b', 'a', 'b']) 3 3 = 2 ∧
    levSpec ['a', 'b', 'a'] ['b', 'a', 'b'] = 2 := by decide

set_option maxRecDepth 4000 in
/-- C6 fails on the code: `distanceWithin("aa","aab",1)` yields the
non-sentinel value `d = 2`, but `distanceWithin("aa","aab",2)` with
`k' = 2 ≥ d` yields `1`, not the same `d`. -/
theorem claim6_failing_input :
    (limitedCompare ['a', 'a'] ['a', 'a', 'b'] 1).distance = 2 ∧
    (limitedCompare ['a', 'a'] ['a', 'a', 'b'] 2).distance = 1 := by decide

set_option maxRecDepth 4000 in
/-- C4 fails on the code: for `"hello"` vs `"hallo"` (longer length 5, so
the JS window radius `5/2 - 1 = 1.5` is fractional while the claim's floor
radius is `1`) the code produces matches 4 with 3 half-transpositions and
score `0.7675`, whereas the claimed floor-window matching gives 4 matches,
0 half-transpositions and the documented score `0.88`. -/
theorem claim4_failing_input :
    JaroWinklerDistance.jwMatches ['h', 'e', 'l', 'l', 'o'] ['h', 'a', 'l', 'l', 'o'] =
      (4, 3, 1) ∧
    jwMatchesSpec ['h', 'e', 'l', 'l', 'o'] ['h', 'a', 'l', 'l', 'o'] = (4, 0, 1) ∧
    JaroWinklerDistance.apply ['h', 'e', 'l', 'l', 'o'] ['h', 'a', 'l', 'l', 'o'] =
      307 / 400 ∧
    jwApplySpec ['h', 'e', 'l', 'l', 'o'] ['h', 'a', 'l', 'l', 'o'] = 22 / 25 := by
  have h1 : JaroWinklerDistance.jwMatches ['h', 'e', 'l', 'l', 'o']
      ['h', 'a', 'l', 'l', 'o'] = (4, 3, 1) := by decide
  have h2 : jwMatchesSpec ['h', 'e', 'l', 'l', 'o'] ['h', 'a', 'l', 'l', 'o'] =
      (4, 0, 1) := by decide
  refine ⟨h1, h2, ?_, ?_⟩
  · unfold JaroWinklerDistance.apply
    rw [h1]
    norm_num
  · unfold jwApplySpec
    rw [h2]
    norm_num

/-- C9: the bounded and unbounded Levenshtein operations and the
Jaro-Winkler similarity fail fast with the null-input error whenever either
sequence argument is absent, and the bounded operation additionally fails
fast on a negative threshold; in the pure model no other computation
happens in those cases. -/
theorem claim9_null_and_threshold_guards :
    (∀ (l r : Option Str) (t : Int), l = none ∨ r = none →
      limitedCompareChecked l r t = Except.error "CharSequences must not be null" ∧
      unlimitedCompareChecked l r = Except.error "CharSequences must not be null" ∧
      JaroWinklerDistance.applyChecked l r =
        Except.error "CharSequences must not be null") ∧
    (∀ (a b : Str) (t : Int), t < 0 →
      limitedCompareChecked (some a) (some b) t =
        Except.error "Threshold must not be negative") := by
  constructor
  · rintro l r t (rfl | rfl)
    · exact ⟨rfl, rfl, rfl⟩
    · cases l <;> exact ⟨rfl, rfl, rfl⟩
  · intro a b t ht
    simp only [limitedCompareChecked, if_pos ht]

theorem claim9_witness :
    limitedCompareChecked none (some ['a']) 0 =
      Except.error "CharSequences must not be null" ∧
    limitedCompareChecked (some ['a']) (some ['a']) (-1) =
      Except.error "Threshold must not be negative" :=
  ⟨(claim9_null_and_threshold_guards.1 none (some ['a']) 0 (Or.inl rfl)).1,
   claim9_null_and_threshold_guards.2 ['a'] ['a'] (-1) (by norm_num)⟩

/-- C10: instances created with `new LevenshteinDetailedDistance()` —
including `DEFAULT_INSTANCE` — have no threshold set (the member named
`LevenshteinDetailedDistance` is an ordinary method, not a constructor), so
their `apply` always performs the unbounded computation and the bounded
path and its negative-threshold validation are never reached at
construction. -/
theorem claim10_default_instance_unbounded :
    DEFAULT_INSTANCE.threshold = none ∧ newInstance.threshold = none ∧
    ∀ l r : Option Str,
      DEFAULT_INSTANCE.apply l r = unlimitedCompareChecked l r ∧
      newInstance.apply l r = unlimitedCompareChecked l r :=
  ⟨rfl, rfl, fun _ _ => ⟨rfl, rfl⟩⟩

end CommonsText
